import Mathlib

/-!
# Verification of the `urdf-viz` core (`src/lib.rs`)

A shallow embedding, in Lean 4, of the path-resolution, mesh-conversion,
preprocessor-bridge and scene-registry code of the `urdf-viz` crate, together
with theorems settling the frozen claims about its specification.

Conventions of the embedding:
* Rust strings and paths are modelled as `Str := List Char`; all path
  manipulation (`PathBuf::push`, `Path::parent`, `Path::with_extension`,
  `Path::extension`) is defined below following the Rust semantics on the
  inputs the program uses (final component non-empty, `/` separator).
* External processes (`rospack find`, the `xacro` converter) and the
  filesystem are collaborators; they are modelled as explicit function
  parameters gathered in a `World` structure, and side effects are recorded
  in an explicit `Effect` trace.
* A Rust `panic!` is modelled as `Except.error`; `f32` colour components are
  modelled as `ℚ` (the program only copies and compares them, it never does
  arithmetic on them, so the embedding is exact).
-/

/-- Rust strings/paths are modelled as lists of characters. -/
abbrev Str := List Char

/-- The class `\w` of the `regex` crate: ASCII word characters (the package names the
program deals with are ASCII; `\w` is Unicode-aware but agrees on ASCII). -/
def isWordChar (c : Char) : Bool :=
  c.isAlphanum || c = '_'

/-- The scheme recognised by `expand_package_path`
(`filename.starts_with("package://")`). -/
def packageSchemePfx : Str :=
  "package://".toList

/-- Rust `PathBuf::push`, on the separator-`/` platform: pushing an
absolute path replaces the buffer; otherwise the new component is appended,
inserting a `/` separator unless the buffer is empty or already ends in `/`. -/
def pathPush (base : Str) (file : Str) : Str :=
  if file.head? = some '/' then file
  else if base = [] then file
  else if base.getLast? = some '/' then base ++ file
  else base ++ '/' :: file

/-- The panic message of `expand_package_path`
(`panic!("failed to find ros package {}", &ma[1])`). -/
def rospackPanicMsg (pkg : Str) : Str :=
  "failed to find ros package ".toList ++ pkg

/-- Embedding of `fn expand_package_path(filename: &str, base_dir: &Path) -> String`.

`rospack` models the external `rospack find` process (`rospack_find` in the
source): `some dir` when the process exits successfully printing `dir`,
`none` on a non-zero exit.  The regex `^package://(\w+)/` is embedded
directly: after the literal scheme, a maximal non-empty run of word
characters followed by `/` (`\w+` cannot match `/`, so maximal munch is
exact).  `Regex::replace` replaces the first match — the matched
`package://<pkg>/` becomes `<found_path>/` — and returns the input unchanged
when the regex does not match.  The `panic!` on a failed lookup is the
`Except.error` branch.  The function touches no filesystem: it is a pure
function of its string inputs and the locator. -/
def expand_package_path (rospack : Str → Option Str) (filename : Str)
    (base_dir : Str) : Except Str Str :=
  if packageSchemePfx.isPrefixOf filename then
    let rest := filename.drop packageSchemePfx.length
    let pkg := rest.takeWhile isWordChar
    let after := rest.dropWhile isWordChar
    if pkg ≠ [] ∧ after.head? = some '/' then
      match rospack pkg with
      | some found_path => Except.ok (found_path ++ '/' :: after.tail)
      | none => Except.error (rospackPanicMsg pkg)
    else
      Except.ok filename
  else
    Except.ok (pathPush base_dir filename)

/-! ## The data model: colours, transforms, scene nodes, meshes

`kiss3d::scene::SceneNode` is an external collaborator; it is modelled by
the interface the program uses (spec §3): local-transform assignment
(`set_local_transformation`), colour assignment (`set_color`, which colours
the directly attached renderable object, if any, and recursively the
objects of the children) and colour query (`data().object()` follwed by
`data().color()`, which reads the directly attached object only).  The
nodes the program builds are flat: primitives (`add_cube`, `add_cylinder`,
`add_sphere`) carry a directly attached object; mesh geometry is a group
node (`add_group`) with one child object per mesh and no direct object. -/

/-- An RGB colour.  `f32` components are modelled as `ℚ`: the program only
stores, copies and compares colours, so the embedding is exact. -/
structure Color where
  r : ℚ
  g : ℚ
  b : ℚ
  deriving DecidableEq

/-- A rigid transform (`na::Isometry3<f32>`), modelled as translation plus
rotation quaternion over `ℚ`; the program only stores and copies
transforms. -/
structure Transform where
  translation : ℚ × ℚ × ℚ
  rotation : ℚ × ℚ × ℚ × ℚ
  deriving DecidableEq

/-- A scene node, modelled by the observable state the program touches:
the colour of the directly attached renderable object (`none` for pure
group nodes), the colours of the child objects (one level deep — exactly
the shape `add_geometry` produces), and the local transformation. -/
structure SceneNode where
  objectColor : Option Color
  childObjectColors : List Color
  localTransform : Transform
  deriving DecidableEq

/-- Model of `SceneNode::set_color(r, g, b)`: recursively recolours the directly
attached object (if any) and every child object. -/
def SceneNode.set_color (n : SceneNode) (c : Color) : SceneNode :=
  { n with
    objectColor := n.objectColor.map (fun _ => c),
    childObjectColors := n.childObjectColors.map (fun _ => c) }

/-- Model of `SceneNode::set_local_transformation(t)`. -/
def SceneNode.set_local_transformation (n : SceneNode) (t : Transform) : SceneNode :=
  { n with localTransform := t }

/-- The colour kiss3d gives a freshly created object (white). -/
def defaultObjectColor : Color := ⟨1, 1, 1⟩

/-- The identity transform of a freshly created node. -/
def identityTransform : Transform := ⟨(0, 0, 0), (0, 0, 0, 1)⟩

/-- A vertex / point (`na::Point3<f32>`), components modelled as `ℚ`
(copied, never computed with). -/
structure Point3 where
  x : ℚ
  y : ℚ
  z : ℚ
  deriving DecidableEq

/-- A face of an assimp mesh: `num_indices` is the length of `indices`,
and `f[i]` is `indices[i]`. -/
structure AFace where
  indices : List ℕ
  deriving DecidableEq

/-- An assimp sub-mesh: the vertex positions and the faces. -/
structure AMesh where
  vertices : List Point3
  faces : List AFace
  deriving DecidableEq

/-- A kiss3d mesh resource (`Mesh::new(vertices, indices, None, None,
false)`): the vertex buffer and the triangle index buffer. -/
structure KMesh where
  coords : List Point3
  faces : List (ℕ × ℕ × ℕ)
  deriving DecidableEq

/-- The per-mesh body of `convert_assimp_scene_to_kiss3d_meshes`: vertices
are copied one-for-one; a face is kept iff `num_indices == 3`, in which
case its first three indices form a triangle (`f[0], f[1], f[2]`). -/
def convertAssimpMesh (mesh : AMesh) : KMesh :=
  { coords := mesh.vertices.map (fun v => Point3.mk v.x v.y v.z),
    faces := mesh.faces.filterMap (fun f =>
      if f.indices.length = 3 then
        some (f.indices.getD 0 0, f.indices.getD 1 0, f.indices.getD 2 0)
      else
        none) }

/-- Embedding of `fn convert_assimp_scene_to_kiss3d_meshes(scene) -> Vec<Mesh>`: one
kiss3d mesh per assimp sub-mesh. -/
def convert_assimp_scene_to_kiss3d_meshes (scene : List AMesh) : List KMesh :=
  scene.map convertAssimpMesh

/-! ## The association-list model of `HashMap`

`HashMap<String, _>` is modelled as an association list with the key
operations the program uses: `get`/`get_mut` (`lookupAssoc`), `insert`
(`insertAssoc`, which replaces the binding of an existing key) and in-place
mutation through `get_mut` (`modifyAssoc`, which rewrites the value of the
key if present and does nothing otherwise). -/

def lookupAssoc {β : Type} (k : String) : List (String × β) → Option β
  | [] => none
  | (k1, v) :: rest => if k1 = k then some v else lookupAssoc k rest

def insertAssoc {β : Type} (k : String) (v : β) : List (String × β) → List (String × β)
  | [] => [(k, v)]
  | (k1, v1) :: rest =>
    if k1 = k then (k, v) :: rest else (k1, v1) :: insertAssoc k v rest

def modifyAssoc {β : Type} (k : String) (f : β → β) : List (String × β) → List (String × β)
  | [] => []
  | (k1, v1) :: rest =>
    if k1 = k then (k1, f v1) :: rest else (k1, v1) :: modifyAssoc k f rest

theorem lookupAssoc_insertAssoc_self {β : Type} (k : String) (v : β)
    (l : List (String × β)) : lookupAssoc k (insertAssoc k v l) = some v := by
  induction l with
  | nil => simp [insertAssoc, lookupAssoc]
  | cons p rest ih =>
    by_cases h : p.1 = k <;> simp [insertAssoc, lookupAssoc, h, ih]

theorem lookupAssoc_insertAssoc_ne {β : Type} (k k2 : String) (v : β)
    (l : List (String × β)) (h : k2 ≠ k) :
    lookupAssoc k (insertAssoc k2 v l) = lookupAssoc k l := by
  induction l with
  | nil => simp [insertAssoc, lookupAssoc, h]
  | cons p rest ih =>
    by_cases hp : p.1 = k2 <;> simp [insertAssoc, lookupAssoc, hp, h, ih]

theorem lookupAssoc_modifyAssoc_self {β : Type} (k : String) (f : β → β)
    (l : List (String × β)) :
    lookupAssoc k (modifyAssoc k f l) = (lookupAssoc k l).map f := by
  induction l with
  | nil => simp [modifyAssoc, lookupAssoc]
  | cons p rest ih =>
    by_cases h : p.1 = k <;> simp [modifyAssoc, lookupAssoc, h, ih]

theorem lookupAssoc_modifyAssoc_ne {β : Type} (k k2 : String) (f : β → β)
    (l : List (String × β)) (h : k2 ≠ k) :
    lookupAssoc k (modifyAssoc k2 f l) = lookupAssoc k l := by
  induction l with
  | nil => simp [modifyAssoc, lookupAssoc]
  | cons p rest ih =>
    by_cases hp : p.1 = k2 <;> simp [modifyAssoc, lookupAssoc, hp, h, ih]

/-! ## Helper lemmas on lists -/

theorem isPrefixOf_append_self {α : Type} [BEq α] [LawfulBEq α] (p l : List α) :
    p.isPrefixOf (p ++ l) = true := by
  induction p with
  | nil => simp [List.isPrefixOf]
  | cons a as ih => simp [List.isPrefixOf, ih]

theorem takeWhile_append_of_all {α : Type} (p : α → Bool) (l₁ : List α) (x : α)
    (l₂ : List α) (h₁ : ∀ a ∈ l₁, p a = true) (hx : p x = false) :
    (l₁ ++ x :: l₂).takeWhile p = l₁ := by
  induction l₁ with
  | nil => simp [List.takeWhile, hx]
  | cons a as ih =>
    have ha : p a = true := h₁ a (by simp)
    simp only [List.cons_append, List.takeWhile_cons, ha, if_true]
    rw [ih (fun b hb => h₁ b (by simp [hb]))]

theorem dropWhile_append_of_all {α : Type} (p : α → Bool) (l₁ : List α) (x : α)
    (l₂ : List α) (h₁ : ∀ a ∈ l₁, p a = true) (hx : p x = false) :
    (l₁ ++ x :: l₂).dropWhile p = x :: l₂ := by
  induction l₁ with
  | nil => simp [List.dropWhile, hx]
  | cons a as ih =>
    have ha : p a = true := h₁ a (by simp)
    simp only [List.cons_append, List.dropWhile_cons, ha, if_true]
    exact ih (fun b hb => h₁ b (by simp [hb]))

/-! ## The robot description and the geometry builder -/

/-- Model of `urdf_rs::Geometry`: the four visual-geometry variants.  Numeric
parameters (`f64` in the source, cast to `f32` for the renderer) are
modelled as `ℚ`; they are only passed through to the renderer. -/
inductive Geometry where
  | box (size : ℚ × ℚ × ℚ)
  | cylinder (radius : ℚ) (len : ℚ)
  | sphere (radius : ℚ)
  | mesh (filename : Str) (scale : ℚ × ℚ × ℚ)
  deriving DecidableEq

/-- Model of `urdf_rs::Visual`: the geometry plus the material colour.  `rgb` is
`material.color.rgba` components 0..2 — the only components `add_geometry`
reads (`obj.set_color(rgba[0], rgba[1], rgba[2])`; alpha is ignored). -/
structure Visual where
  geometry : Geometry
  rgb : Color
  deriving DecidableEq

/-- One link of the robot description: a unique name and one visual. -/
structure Link where
  name : String
  visual : Visual
  deriving DecidableEq

/-- The external collaborators of the geometry builder: the `rospack find`
process, the filesystem existence check (`Path::exists`) and the assimp
importer (`Importer::read_file`, `none` on a read failure). -/
structure RenderWorld where
  rospack : Str → Option Str
  pathExists : Str → Bool
  readMeshFile : Str → Option (List AMesh)

/-- Embedding of `pub fn load_mesh<P>(filename: P) -> Result<Vec<Rc<RefCell<Mesh>>>, String>`.
The `to_str` conversion always succeeds in the model (a `List Char` is
always valid text); a failed assimp read yields the descriptive error of
the source. -/
def load_mesh (w : RenderWorld) (filename : Str) : Except Str (List KMesh) :=
  match w.readMeshFile filename with
  | some as_scene => Except.ok (convert_assimp_scene_to_kiss3d_meshes as_scene)
  | none => Except.error ("failed to read file in assimp ".toList ++ filename)

/-- A freshly created primitive node (`add_cube` / `add_cylinder` /
`add_sphere`): one directly attached object, no children. -/
def newPrimitiveNode : SceneNode :=
  { objectColor := some defaultObjectColor,
    childObjectColors := [],
    localTransform := identityTransform }

/-- The group node built for mesh geometry (`window.add_group()` followed
by one `group.add_mesh` per loaded mesh): no directly attached object, one
child object per mesh. -/
def newMeshGroupNode (meshes : List KMesh) : SceneNode :=
  { objectColor := none,
    childObjectColors := meshes.map (fun _ => defaultObjectColor),
    localTransform := identityTransform }

/-- Embedding of `fn add_geometry(visual, base_dir, window) -> Option<SceneNode>`.
`Except.error` models a panic escaping from `expand_package_path`; the
`Except.ok none` branches are the source's `return None` paths (missing
mesh file, unloadable mesh).  On success the node is coloured with the
material colour. -/
def add_geometry (w : RenderWorld) (visual : Visual) (base_dir : Str) :
    Except Str (Option SceneNode) :=
  let geom : Except Str (Option SceneNode) :=
    match visual.geometry with
    | Geometry.box _ => Except.ok (some newPrimitiveNode)
    | Geometry.cylinder _ _ => Except.ok (some newPrimitiveNode)
    | Geometry.sphere _ => Except.ok (some newPrimitiveNode)
    | Geometry.mesh filename _ =>
      match expand_package_path w.rospack filename base_dir with
      | Except.error e => Except.error e
      | Except.ok replaced_filename =>
        if w.pathExists replaced_filename then
          match load_mesh w replaced_filename with
          | Except.ok meshes => Except.ok (some (newMeshGroupNode meshes))
          | Except.error _ => Except.ok none
        else
          Except.ok none
  match geom with
  | Except.error e => Except.error e
  | Except.ok none => Except.ok none
  | Except.ok (some obj) => Except.ok (some (obj.set_color visual.rgb))

/-! ## The scene registry (`Viewer`) -/

/-- The `Viewer` state the claims concern: the robot description, the
name→scene-node map and the recorded original colours.  The window, camera
and font state are pure renderer state with no bearing on any claim. -/
structure Viewer where
  urdf_robot : List Link
  scenes : List (String × SceneNode)
  original_colors : List (String × Color)
  deriving DecidableEq

/-- Embedding of `Viewer::new`: empty maps. -/
def Viewer.new (urdf_robot : List Link) : Viewer :=
  { urdf_robot := urdf_robot, scenes := [], original_colors := [] }

/-- The body of the `for l in &self.urdf_robot.links` loop of
`Viewer::setup`, iterated: a successful build inserts `(l.name, geom)`;
a `None` build only logs (`error!`) and inserts nothing; a panic
(`Except.error`) aborts. -/
def setupLoop (w : RenderWorld) (base_dir : Str) :
    List Link → Viewer → Except Str Viewer
  | [], v => Except.ok v
  | l :: rest, v =>
    match add_geometry w l.visual base_dir with
    | Except.error e => Except.error e
    | Except.ok (some geom) =>
      setupLoop w base_dir rest
        { v with scenes := insertAssoc l.name geom v.scenes }
    | Except.ok none => setupLoop w base_dir rest v

/-- Embedding of `pub fn setup(&mut self, base_dir: &Path)` (the light and background
calls touch only renderer state). -/
def Viewer.setup (w : RenderWorld) (v : Viewer) (base_dir : Str) :
    Except Str Viewer :=
  setupLoop w base_dir v.urdf_robot v

/-- The body of the loop of `Viewer::update`: a matched name gets
`set_local_transformation`, an unmatched name is only printed
(the not-found `println`) and skipped. -/
def updateStep (acc : Viewer) (p : Transform × String) : Viewer :=
  match lookupAssoc p.2 acc.scenes with
  | some _ =>
    { acc with
      scenes := modifyAssoc p.2
        (fun obj => obj.set_local_transformation p.1) acc.scenes }
  | none => acc

/-- Embedding of `pub fn update(&mut self, robot: &mut k::LinkTree<f32>)`.  The zip of
`calc_link_transforms()` with `map_link(name)` — both produced by the
external solver in one traversal order — is passed in as the list of
(transform, link-name) pairs. -/
def Viewer.update (v : Viewer) (link_transforms : List (Transform × String)) :
    Viewer :=
  link_transforms.foldl updateStep v

/-- Embedding of `pub fn set_temporal_color(&mut self, link_name, r, g, b)`: reads the
current colour of the directly attached object of the node (if both
exist), recolours the node, and then — whenever a colour was read —
`insert`s it into `original_colors` (an unconditional `HashMap::insert`,
which replaces any existing binding). -/
def Viewer.set_temporal_color (v : Viewer) (link_name : String) (c : Color) :
    Viewer :=
  let color_opt : Option Color :=
    match lookupAssoc link_name v.scenes with
    | some obj => obj.objectColor
    | none => none
  let v1 : Viewer :=
    { v with
      scenes := modifyAssoc link_name (fun obj => obj.set_color c) v.scenes }
  match color_opt with
  | some color =>
    { v1 with original_colors := insertAssoc link_name color v1.original_colors }
  | none => v1

/-- Embedding of `pub fn reset_temporal_color(&mut self, link_name)`: if an original
colour is recorded, reapply it to the node (if still present); the
recorded entry is left in place. -/
def Viewer.reset_temporal_color (v : Viewer) (link_name : String) : Viewer :=
  match lookupAssoc link_name v.original_colors with
  | some original_color =>
    { v with
      scenes := modifyAssoc link_name
        (fun obj => obj.set_color original_color) v.scenes }
  | none => v

/-! ## Claims C2, C3, C4: the path resolver -/

/-- C2.  For every filename that does not begin with `package://` and every
base directory, `expand_package_path` returns exactly the path-join of the
base directory and the filename, for every behaviour of the external package
locator (in particular no process is run and no filesystem existence check
is performed: the result is fully determined by the two strings). -/
theorem expand_package_path_relative (rospack : Str → Option Str)
    (filename base_dir : Str)
    (h : packageSchemePfx.isPrefixOf filename = false) :
    expand_package_path rospack filename base_dir =
      Except.ok (pathPush base_dir filename) := by
  simp [expand_package_path, h]

/-- Witness for C2, the example from `test_func` in the source: base
`/home/user` (the parent of `/home/user/robo.urdf`) and filename
`mesh/aaa.obj` resolve to `/home/user/mesh/aaa.obj`. -/
theorem expand_package_path_relative_witness :
    packageSchemePfx.isPrefixOf "mesh/aaa.obj".toList = false ∧
    expand_package_path (fun _ => none) "mesh/aaa.obj".toList "/home/user".toList =
      Except.ok "/home/user/mesh/aaa.obj".toList :=
  ⟨rfl,
    (expand_package_path_relative (fun _ => none) "mesh/aaa.obj".toList
      "/home/user".toList rfl).trans rfl⟩

/-- C3.  For every filename `package://<pkg>/<rest>` with `<pkg>` a non-empty
run of word characters, if the locator resolves `<pkg>` to directory `D` the
resolver returns `D/<rest>`, and the result does not depend on the base
directory argument (it is the same for every `base_dir`). -/
theorem expand_package_path_package (rospack : Str → Option Str)
    (pkg rest found_dir : Str)
    (hw : ∀ c ∈ pkg, isWordChar c = true) (hne : pkg ≠ [])
    (hfind : rospack pkg = some found_dir) :
    ∀ base_dir : Str,
      expand_package_path rospack (packageSchemePfx ++ pkg ++ '/' :: rest) base_dir =
        Except.ok (found_dir ++ '/' :: rest) := by
  intro base_dir
  have hslash : isWordChar '/' = false := rfl
  have hpre : packageSchemePfx.isPrefixOf (packageSchemePfx ++ pkg ++ '/' :: rest) = true := by
    rw [List.append_assoc]
    exact isPrefixOf_append_self _ _
  have hdrop : (packageSchemePfx ++ pkg ++ '/' :: rest).drop packageSchemePfx.length =
      pkg ++ '/' :: rest := by
    rw [List.append_assoc, List.drop_left]
  simp only [expand_package_path, hpre, if_true, hdrop,
    takeWhile_append_of_all isWordChar pkg '/' rest hw hslash,
    dropWhile_append_of_all isWordChar pkg '/' rest hw hslash]
  simp [hne, hfind]

/-- Witness for C3: `package://mypkg/mesh/file.obj` with a locator mapping
`mypkg` to `/opt/ros/mypkg` resolves to `/opt/ros/mypkg/mesh/file.obj`. -/
theorem expand_package_path_package_witness :
    (∀ c ∈ "mypkg".toList, isWordChar c = true) ∧ "mypkg".toList ≠ [] ∧
    expand_package_path
        (fun p => if p = "mypkg".toList then some "/opt/ros/mypkg".toList else none)
        "package://mypkg/mesh/file.obj".toList "/base".toList =
      Except.ok "/opt/ros/mypkg/mesh/file.obj".toList := by
  refine ⟨by decide, by decide, ?_⟩
  have h := expand_package_path_package
    (fun p => if p = "mypkg".toList then some "/opt/ros/mypkg".toList else none)
    "mypkg".toList "mesh/file.obj".toList "/opt/ros/mypkg".toList
    (by decide) (by decide) (by decide) "/base".toList
  exact (by rfl : expand_package_path
      (fun p => if p = "mypkg".toList then some "/opt/ros/mypkg".toList else none)
      "package://mypkg/mesh/file.obj".toList "/base".toList =
    expand_package_path
      (fun p => if p = "mypkg".toList then some "/opt/ros/mypkg".toList else none)
      (packageSchemePfx ++ "mypkg".toList ++ '/' :: "mesh/file.obj".toList)
      "/base".toList).trans (h.trans rfl)

/-- C4.  For every filename `package://<pkg>/<rest>` whose package the
locator fails to resolve, the resolver returns no fallback path: it panics
(modelled as `Except.error`) with a message that names the missing package
identifier. -/
theorem expand_package_path_panic (rospack : Str → Option Str)
    (pkg rest : Str)
    (hw : ∀ c ∈ pkg, isWordChar c = true) (hne : pkg ≠ [])
    (hfind : rospack pkg = none) :
    ∀ base_dir : Str,
      expand_package_path rospack (packageSchemePfx ++ pkg ++ '/' :: rest) base_dir =
        Except.error ("failed to find ros package ".toList ++ pkg) := by
  intro base_dir
  have hslash : isWordChar '/' = false := rfl
  have hpre : packageSchemePfx.isPrefixOf (packageSchemePfx ++ pkg ++ '/' :: rest) = true := by
    rw [List.append_assoc]
    exact isPrefixOf_append_self _ _
  have hdrop : (packageSchemePfx ++ pkg ++ '/' :: rest).drop packageSchemePfx.length =
      pkg ++ '/' :: rest := by
    rw [List.append_assoc, List.drop_left]
  simp only [expand_package_path, hpre, if_true, hdrop,
    takeWhile_append_of_all isWordChar pkg '/' rest hw hslash,
    dropWhile_append_of_all isWordChar pkg '/' rest hw hslash]
  simp [hne, hfind, rospackPanicMsg]

/-- Witness for C4: `package://mypkg/mesh/file.obj` with a locator that
fails on every package aborts with a message naming `mypkg`. -/
theorem expand_package_path_panic_witness :
    (∀ c ∈ "mypkg".toList, isWordChar c = true) ∧ "mypkg".toList ≠ [] ∧
    expand_package_path (fun _ => none)
        "package://mypkg/mesh/file.obj".toList "/base".toList =
      Except.error "failed to find ros package mypkg".toList := by
  refine ⟨by decide, by decide, ?_⟩
  have h := expand_package_path_panic (fun _ => none)
    "mypkg".toList "mesh/file.obj".toList
    (by decide) (by decide) rfl "/base".toList
  exact (by rfl : expand_package_path (fun _ => none)
      "package://mypkg/mesh/file.obj".toList "/base".toList =
    expand_package_path (fun _ => none)
      (packageSchemePfx ++ "mypkg".toList ++ '/' :: "mesh/file.obj".toList)
      "/base".toList).trans (h.trans rfl)

/-! ## Lemmas on `SceneNode` and the registry operations -/

theorem set_color_set_color (node : SceneNode) (a b : Color) :
    (node.set_color a).set_color b = node.set_color b := by
  cases node with
  | mk o cs t =>
    cases o <;>
      simp [SceneNode.set_color, List.map_map, Function.comp]

theorem objectColor_set_color (node : SceneNode) (c : Color) :
    (node.set_color c).objectColor = node.objectColor.map (fun _ => c) :=
  rfl

/-- The scene map after `set_temporal_color`: the node (if present) is
recoloured in place. -/
theorem set_temporal_color_scenes (v : Viewer) (n : String) (c : Color) :
    (v.set_temporal_color n c).scenes =
      modifyAssoc n (fun obj => obj.set_color c) v.scenes := by
  unfold Viewer.set_temporal_color
  cases h : lookupAssoc n v.scenes with
  | none => simp [h]
  | some obj => cases hc : obj.objectColor <;> simp [h, hc]

/-- The override map after `set_temporal_color`: the current colour of the
directly attached object, when there is one, is `insert`ed (replacing any
recorded colour); otherwise the map is untouched. -/
theorem set_temporal_color_original_colors (v : Viewer) (n : String) (c : Color) :
    (v.set_temporal_color n c).original_colors =
      match lookupAssoc n v.scenes with
      | some obj =>
        match obj.objectColor with
        | some orig => insertAssoc n orig v.original_colors
        | none => v.original_colors
      | none => v.original_colors := by
  unfold Viewer.set_temporal_color
  cases h : lookupAssoc n v.scenes with
  | none => simp [h]
  | some obj => cases hc : obj.objectColor <;> simp [h, hc]

/-! ## Claim C1: highlight / highlight / reset -/

/-- C1 (amended).  For a link `n` whose node has a directly attached object
of colour `c0`: `set_temporal_color(n, c1)` records `c0`, but a second
`set_temporal_color(n, c2)` reads the already-highlighted colour `c1` and
unconditionally `insert`s it, overwriting the record; `reset_temporal_color(n)`
therefore repaints the node with the FIRST temporal colour `c1` — not with
the colour `c0` held before the first set call. -/
theorem set_temporal_color_twice_reset (v : Viewer) (n : String)
    (node : SceneNode) (c0 c1 c2 : Color)
    (hn : lookupAssoc n v.scenes = some node)
    (hobj : node.objectColor = some c0) :
    lookupAssoc n
        (((v.set_temporal_color n c1).set_temporal_color n c2).reset_temporal_color
          n).scenes =
      some (node.set_color c1) ∧
    lookupAssoc n
        (((v.set_temporal_color n c1).set_temporal_color n c2).reset_temporal_color
          n).original_colors =
      some c1 := by
  set v1 := v.set_temporal_color n c1 with hv1
  have h1s : lookupAssoc n v1.scenes = some (node.set_color c1) := by
    rw [hv1, set_temporal_color_scenes, lookupAssoc_modifyAssoc_self, hn]
    rfl
  have h1o : v1.original_colors = insertAssoc n c0 v.original_colors := by
    rw [hv1, set_temporal_color_original_colors, hn]
    simp [hobj]
  set v2 := v1.set_temporal_color n c2 with hv2
  have h2s : lookupAssoc n v2.scenes = some ((node.set_color c1).set_color c2) := by
    rw [hv2, set_temporal_color_scenes, lookupAssoc_modifyAssoc_self, h1s]
    rfl
  have h2o : lookupAssoc n v2.original_colors = some c1 := by
    rw [hv2, set_temporal_color_original_colors, h1s]
    simp [objectColor_set_color, hobj, lookupAssoc_insertAssoc_self]
  constructor
  · show lookupAssoc n (v2.reset_temporal_color n).scenes = _
    unfold Viewer.reset_temporal_color
    rw [h2o]
    simp only [lookupAssoc_modifyAssoc_self, h2s]
    simp [set_color_set_color]
  · show lookupAssoc n (v2.reset_temporal_color n).original_colors = _
    unfold Viewer.reset_temporal_color
    rw [h2o]
    exact h2o

/-- A concrete node for claim C1: a primitive node whose object is red. -/
def nodeC1 : SceneNode :=
  { objectColor := some ⟨1, 0, 0⟩,
    childObjectColors := [],
    localTransform := identityTransform }

/-- A concrete viewer for claim C1: one link named `link1`. -/
def viewerC1 : Viewer :=
  { urdf_robot := [], scenes := [("link1", nodeC1)], original_colors := [] }

/-- The viewer of `viewerC1` after highlight green, highlight blue, reset. -/
def finalC1 : Viewer :=
  ((viewerC1.set_temporal_color "link1" ⟨0, 1, 0⟩).set_temporal_color
      "link1" ⟨0, 0, 1⟩).reset_temporal_color "link1"

/-- C1 counterexample.  Link `link1` is red before any highlight; after
`set_temporal_color(green)`, `set_temporal_color(blue)` and
`reset_temporal_color`, its object colour is green — the first temporal
colour — and not the pre-highlight red the claim requires: the recorded
original colour IS overwritten by the second highlight. -/
theorem set_temporal_color_first_wins_counterexample :
    (lookupAssoc "link1" finalC1.scenes).map SceneNode.objectColor =
      some (some ⟨0, 1, 0⟩) ∧
    ¬ (lookupAssoc "link1" finalC1.scenes).map SceneNode.objectColor =
      some (some ⟨1, 0, 0⟩) := by
  decide

/-- Witness for the amended C1 at the concrete viewer `viewerC1`. -/
theorem set_temporal_color_twice_reset_witness :
    lookupAssoc "link1" viewerC1.scenes = some nodeC1 ∧
    nodeC1.objectColor = some ⟨1, 0, 0⟩ ∧
    (lookupAssoc "link1"
        (((viewerC1.set_temporal_color "link1" ⟨0, 1, 0⟩).set_temporal_color
            "link1" ⟨0, 0, 1⟩).reset_temporal_color "link1").scenes =
      some (nodeC1.set_color ⟨0, 1, 0⟩) ∧
    lookupAssoc "link1"
        (((viewerC1.set_temporal_color "link1" ⟨0, 1, 0⟩).set_temporal_color
            "link1" ⟨0, 0, 1⟩).reset_temporal_color "link1").original_colors =
      some ⟨0, 1, 0⟩) :=
  ⟨rfl, rfl,
    set_temporal_color_twice_reset viewerC1 "link1" nodeC1
      ⟨1, 0, 0⟩ ⟨0, 1, 0⟩ ⟨0, 0, 1⟩ rfl rfl⟩

/-! ## Claim C10: highlighting a pure group node records no override -/

/-- C10.  For a link `n` whose scene node has no directly attached object
(a pure group node, as built for mesh geometry and axis indicators):
`set_temporal_color` recolours the node (the child objects take the new
colour) but records nothing in `original_colors`; hence with no prior
override a following `reset_temporal_color(n)` is the identity — the
highlight colour stays in place instead of the pre-highlight colour being
restored. -/
theorem set_temporal_color_group_no_override (v : Viewer) (n : String)
    (node : SceneNode) (c : Color)
    (hn : lookupAssoc n v.scenes = some node)
    (hobj : node.objectColor = none)
    (hover : lookupAssoc n v.original_colors = none) :
    lookupAssoc n (v.set_temporal_color n c).scenes =
      some (node.set_color c) ∧
    (v.set_temporal_color n c).original_colors = v.original_colors ∧
    (v.set_temporal_color n c).reset_temporal_color n =
      v.set_temporal_color n c := by
  have hs : lookupAssoc n (v.set_temporal_color n c).scenes =
      some (node.set_color c) := by
    rw [set_temporal_color_scenes, lookupAssoc_modifyAssoc_self, hn]
    rfl
  have ho : (v.set_temporal_color n c).original_colors = v.original_colors := by
    rw [set_temporal_color_original_colors, hn]
    simp [hobj]
  refine ⟨hs, ho, ?_⟩
  unfold Viewer.reset_temporal_color
  rw [ho, hover]

/-- A concrete group node for claim C10: mesh geometry with one white
child object and no direct object. -/
def nodeC10 : SceneNode :=
  { objectColor := none,
    childObjectColors := [⟨1, 1, 1⟩],
    localTransform := identityTransform }

/-- A concrete viewer for claim C10. -/
def viewerC10 : Viewer :=
  { urdf_robot := [], scenes := [("mesh_link", nodeC10)], original_colors := [] }

/-- Witness for C10 at the concrete viewer `viewerC10`. -/
theorem set_temporal_color_group_no_override_witness :
    lookupAssoc "mesh_link" viewerC10.scenes = some nodeC10 ∧
    nodeC10.objectColor = none ∧
    lookupAssoc "mesh_link" viewerC10.original_colors = none ∧
    (lookupAssoc "mesh_link"
        (viewerC10.set_temporal_color "mesh_link" ⟨0, 1, 0⟩).scenes =
      some (nodeC10.set_color ⟨0, 1, 0⟩) ∧
    (viewerC10.set_temporal_color "mesh_link" ⟨0, 1, 0⟩).original_colors =
      viewerC10.original_colors ∧
    (viewerC10.set_temporal_color "mesh_link" ⟨0, 1, 0⟩).reset_temporal_color
        "mesh_link" =
      viewerC10.set_temporal_color "mesh_link" ⟨0, 1, 0⟩) :=
  ⟨rfl, rfl, rfl,
    set_temporal_color_group_no_override viewerC10 "mesh_link" nodeC10
      ⟨0, 1, 0⟩ rfl rfl rfl⟩

/-! ## Claim C5: `update` applies transforms by name and tolerates
unknown names -/

/-- The last transform paired with name `n` in a pair list. -/
def lastTransformFor (n : String) : List (Transform × String) → Option Transform
  | [] => none
  | p :: rest =>
    match lastTransformFor n rest with
    | some t => some t
    | none => if p.2 = n then some p.1 else none

theorem lookupAssoc_updateStep (v : Viewer) (p : Transform × String)
    (n : String) :
    lookupAssoc n (updateStep v p).scenes =
      if p.2 = n then
        (lookupAssoc n v.scenes).map
          (fun obj => obj.set_local_transformation p.1)
      else
        lookupAssoc n v.scenes := by
  unfold updateStep
  by_cases h : p.2 = n
  · subst h
    cases hl : lookupAssoc p.2 v.scenes with
    | none => simp [hl]
    | some node => simp [hl, lookupAssoc_modifyAssoc_self]
  · cases hl : lookupAssoc p.2 v.scenes with
    | none => simp [h]
    | some node => simp [h, lookupAssoc_modifyAssoc_ne n p.2 _ _ h]

theorem updateStep_original_colors (v : Viewer) (p : Transform × String) :
    (updateStep v p).original_colors = v.original_colors := by
  unfold updateStep
  cases lookupAssoc p.2 v.scenes <;> rfl

/-- C5.  `update` never fails (it is a total function of the viewer and
the pair list), and for every name `n` the resulting map entry is fully
determined by the pairs naming `n`: a name present in the map receives the
last transform paired with it (or keeps its node untouched if no pair
names it), and a name absent from the map stays absent.  Pairs naming
unknown link names therefore have no effect on the updates applied to
known names. -/
theorem update_applies_transforms_by_name
    (link_transforms : List (Transform × String)) :
    ∀ (v : Viewer) (n : String),
      lookupAssoc n (v.update link_transforms).scenes =
        (lookupAssoc n v.scenes).map (fun node =>
          match lastTransformFor n link_transforms with
          | some t => node.set_local_transformation t
          | none => node) := by
  induction link_transforms with
  | nil =>
    intro v n
    cases hl : lookupAssoc n v.scenes <;>
      simp [Viewer.update, lastTransformFor, hl]
  | cons p rest ih =>
    intro v n
    have hstep : v.update (p :: rest) = (updateStep v p).update rest := rfl
    rw [hstep, ih, lookupAssoc_updateStep]
    by_cases hpn : p.2 = n
    · simp only [hpn, if_true]
      cases hl : lookupAssoc n v.scenes with
      | none => simp [hl]
      | some node =>
        cases hlast : lastTransformFor n rest with
        | some t =>
          simp [lastTransformFor, hlast, SceneNode.set_local_transformation]
        | none =>
          simp [lastTransformFor, hlast, hpn, SceneNode.set_local_transformation]
    · simp only [hpn, if_false]
      cases hl : lookupAssoc n v.scenes with
      | none => simp [hl]
      | some node =>
        cases hlast : lastTransformFor n rest with
        | some t => simp [lastTransformFor, hlast]
        | none => simp [lastTransformFor, hlast, hpn]

/-! ## Claim C6: only triangle faces survive mesh conversion -/

theorem filterMap_if_eq_filter_map {A B : Type} (p : A → Prop)
    [DecidablePred p] (g : A → B) (l : List A) :
    l.filterMap (fun a => if p a then some (g a) else none) =
      (l.filter (fun a => p a)).map g := by
  induction l with
  | nil => rfl
  | cons a as ih => by_cases h : p a <;> simp [h, ih]

/-- Claim C6 example: a sub-mesh whose faces have sizes 3, 4 and 3. -/
def mesh343 : AMesh :=
  { vertices := [⟨0, 0, 0⟩, ⟨1, 0, 0⟩, ⟨0, 1, 0⟩, ⟨0, 0, 1⟩, ⟨1, 1, 0⟩],
    faces := [⟨[0, 1, 2]⟩, ⟨[0, 1, 2, 3]⟩, ⟨[2, 3, 4]⟩] }

/-- C6.  Mesh conversion maps each parsed sub-mesh to a kiss3d mesh whose
vertex buffer has one point per parsed vertex and whose index buffer holds
exactly the faces with three indices (in order, as their first three
indices), every non-triangle face being dropped without error; the
sub-mesh with face sizes 3, 4, 3 yields exactly 2 triangles and keeps all
5 vertices. -/
theorem mesh_conversion_keeps_only_triangles :
    (∀ scene : List AMesh,
      convert_assimp_scene_to_kiss3d_meshes scene =
        scene.map (fun mesh =>
          { coords := mesh.vertices.map (fun v => Point3.mk v.x v.y v.z),
            faces := (mesh.faces.filter (fun f => f.indices.length = 3)).map
              (fun f =>
                (f.indices.getD 0 0, f.indices.getD 1 0,
                  f.indices.getD 2 0)) })) ∧
    (convertAssimpMesh mesh343).faces.length = 2 ∧
    (convertAssimpMesh mesh343).coords.length = mesh343.vertices.length := by
  refine ⟨?_, by decide, by decide⟩
  intro scene
  unfold convert_assimp_scene_to_kiss3d_meshes
  congr 1
  funext mesh
  unfold convertAssimpMesh
  congr 1
  exact filterMap_if_eq_filter_map (fun f => f.indices.length = 3)
    (fun f => (f.indices.getD 0 0, f.indices.getD 1 0, f.indices.getD 2 0))
    mesh.faces

/-! ## The preprocessor bridge (`xacro` conversion)

`Path::extension`, `Path::with_extension` and `Path::parent` are modelled
for paths whose final component is non-empty (every path the program feeds
them), with `/` as separator. -/

/-- The final component of a path (everything after the last `/`). -/
def lastComponent (s : Str) : Str :=
  (s.reverse.takeWhile (fun c => c ≠ '/')).reverse

/-- Rust `Path::extension`: the part of the final component after its last
`.`, provided the dot is not its first character (so `.bashrc` has no
extension), `none` when the final component has no dot. -/
def pathExtension (s : Str) : Option Str :=
  let comp := lastComponent s
  let revExt := comp.reverse.takeWhile (fun c => c ≠ '.')
  match comp.reverse.dropWhile (fun c => c ≠ '.') with
  | [] => none
  | _ :: revStem => if revStem = [] then none else some revExt.reverse

/-- Rust `Path::with_extension(new_ext)`: strip the extension (with its dot)
if there is one, then append `.` and the new extension. -/
def withExtension (s : Str) (newExt : Str) : Str :=
  match pathExtension s with
  | some ext => s.take (s.length - (ext.length + 1)) ++ '.' :: newExt
  | none => s ++ '.' :: newExt

/-- Rust `Path::parent`: `none` for an empty path or the root, the path
without its final component otherwise (`some []` when there is no
separator). -/
def pathParent (s : Str) : Option Str :=
  if s = [] then none
  else if s.all (fun c => c = '/') then none
  else if ¬ s.contains '/' then some []
  else if (s.reverse.dropWhile (fun c => c ≠ '/')).dropWhile (fun c => c = '/') = [] then
    some ['/']
  else
    some ((s.reverse.dropWhile (fun c => c ≠ '/')).dropWhile (fun c => c = '/')).reverse

/-- Embedding of `fn get_cache_dir()`, the fixed cache location. -/
def get_cache_dir : Str :=
  "/tmp/urdf_viz/".toList

/-- The externally visible filesystem/process effects of the preprocessor
bridge, in order of occurrence. -/
inductive FsEffect where
  | createDirAll (dir : Str)
  | runXacro (src : Str) (target : Str)
  deriving DecidableEq

/-- The external collaborators of the bridge: `Path::is_dir` and the exit
status of `rosrun xacro xacro --inorder <src> -o <target>`.
(`std::fs::create_dir_all` is modelled as succeeding: its `Err` would only
propagate unchanged, a path no claim exercises.) -/
structure XacroWorld where
  isDir : Str → Bool
  xacroSucceeds : Str → Str → Bool

/-- Embedding of `fn create_parent_dir(new_path: &Path)`: `parent().unwrap()` (the
`Except.error` models the unwrap panic on a parentless path), then
`create_dir_all` — recorded as an effect — only when the parent is not
already a directory. -/
def create_parent_dir (w : XacroWorld) (new_path : Str) :
    List FsEffect × Except Str Unit :=
  match pathParent new_path with
  | none => ([], Except.error "called unwrap on a None value".toList)
  | some parentDir =>
    if ¬ w.isDir parentDir then
      ([FsEffect.createDirAll parentDir], Except.ok ())
    else
      ([], Except.ok ())

/-- Embedding of `pub fn convert_xacro_to_urdf<P>(filename: P, new_path: P)`: ensure
the parent directory of the target exists, then run the external `xacro`
tool; a non-zero exit yields the source's generic error. -/
def convert_xacro_to_urdf (w : XacroWorld) (filename : Str) (new_path : Str) :
    List FsEffect × Except Str Unit :=
  match create_parent_dir w new_path with
  | (effs, Except.error e) => (effs, Except.error e)
  | (effs, Except.ok _) =>
    (effs ++ [FsEffect.runXacro filename new_path],
      if w.xacroSucceeds filename new_path then Except.ok ()
      else Except.error "faild to xacro".toList)

/-- Embedding of `pub fn convert_xacro_if_needed_and_get_path(input_path: &Path)`.
A `xacro` extension routes through the bridge, targeting the cache
directory string concatenated with the input path re-extensioned to
`urdf`; any other extension passes the input through untouched; a path
with no extension is an error. -/
def convert_xacro_if_needed_and_get_path (w : XacroWorld) (input_path : Str) :
    List FsEffect × Except Str Str :=
  match pathExtension input_path with
  | some ext =>
    if ext = "xacro".toList then
      let abs_urdf_path := get_cache_dir ++ withExtension input_path "urdf".toList
      match convert_xacro_to_urdf w input_path abs_urdf_path with
      | (effs, Except.ok _) => (effs, Except.ok abs_urdf_path)
      | (effs, Except.error e) => (effs, Except.error e)
    else
      ([], Except.ok input_path)
  | none => ([], Except.error "failed to get extension".toList)

/-! ## Claims C7, C8: routing through the preprocessor bridge -/

theorem convert_xacro_to_urdf_spec (w : XacroWorld) (filename new_path p : Str)
    (hp : pathParent new_path = some p) :
    convert_xacro_to_urdf w filename new_path =
      ((if w.isDir p then [] else [FsEffect.createDirAll p]) ++
          [FsEffect.runXacro filename new_path],
        if w.xacroSucceeds filename new_path then Except.ok ()
        else Except.error "faild to xacro".toList) := by
  unfold convert_xacro_to_urdf create_parent_dir
  rw [hp]
  by_cases hd : w.isDir p <;> simp [hd]

/-- C7.  For every input path with extension `xacro`: the conversion
target is the input path re-rooted under the fixed cache directory with
its extension changed to `urdf`; the target's parent directory is created
(recursively, via `create_dir_all`) when absent, and this creation
precedes the invocation of the external conversion tool in the effect
trace; on a successful conversion the target path is returned. -/
theorem xacro_input_maps_to_cache_target (w : XacroWorld) (input_path : Str)
    (hx : pathExtension input_path = some "xacro".toList) :
    ∃ parentDir : Str,
      pathParent (get_cache_dir ++ withExtension input_path "urdf".toList) =
        some parentDir ∧
      (convert_xacro_if_needed_and_get_path w input_path).1 =
        (if w.isDir parentDir then [] else [FsEffect.createDirAll parentDir]) ++
          [FsEffect.runXacro input_path
            (get_cache_dir ++ withExtension input_path "urdf".toList)] ∧
      (w.xacroSucceeds input_path
          (get_cache_dir ++ withExtension input_path "urdf".toList) = true →
        (convert_xacro_if_needed_and_get_path w input_path).2 =
          Except.ok (get_cache_dir ++ withExtension input_path "urdf".toList)) := by
  set target := get_cache_dir ++ withExtension input_path "urdf".toList with htarget
  have h1 : ¬ target = [] := by
    intro hcontra
    exact absurd (List.append_eq_nil.mp hcontra).1 (by decide)
  have h2 : ¬ (target.all (fun c => c = '/') = true) := by
    intro hall
    have hmem : 't' ∈ target :=
      List.mem_append_left _ (by decide : 't' ∈ get_cache_dir)
    exact absurd (List.all_eq_true.mp hall 't' hmem) (by decide)
  have hpar : pathParent target ≠ none := by
    unfold pathParent
    rw [if_neg h1, if_neg h2]
    split
    · simp
    · split <;> simp
  obtain ⟨p, hp⟩ := Option.ne_none_iff_exists.mp hpar
  have hmain : convert_xacro_if_needed_and_get_path w input_path =
      ((if w.isDir p then [] else [FsEffect.createDirAll p]) ++
          [FsEffect.runXacro input_path target],
        if w.xacroSucceeds input_path target then Except.ok target
        else Except.error "faild to xacro".toList) := by
    unfold convert_xacro_if_needed_and_get_path
    rw [hx]
    dsimp only
    rw [if_pos rfl, ← htarget,
      convert_xacro_to_urdf_spec w input_path target p hp.symm]
    by_cases hs : w.xacroSucceeds input_path target <;> simp [hs]
  refine ⟨p, hp.symm, ?_, ?_⟩
  · rw [hmain]
  · intro hs
    rw [hmain]
    simp [hs]

/-- Witness for C7 at the concrete input `/home/user/robo.xacro` in a
world with no existing directories and a succeeding converter. -/
theorem xacro_input_maps_to_cache_target_witness :
    pathExtension "/home/user/robo.xacro".toList = some "xacro".toList ∧
    (∃ parentDir : Str,
      pathParent (get_cache_dir ++
          withExtension "/home/user/robo.xacro".toList "urdf".toList) =
        some parentDir ∧
      (convert_xacro_if_needed_and_get_path
          ⟨fun _ => false, fun _ _ => true⟩ "/home/user/robo.xacro".toList).1 =
        (if (false : Bool) then [] else [FsEffect.createDirAll parentDir]) ++
          [FsEffect.runXacro "/home/user/robo.xacro".toList
            (get_cache_dir ++
              withExtension "/home/user/robo.xacro".toList "urdf".toList)] ∧
      ((true : Bool) = true →
        (convert_xacro_if_needed_and_get_path
            ⟨fun _ => false, fun _ _ => true⟩ "/home/user/robo.xacro".toList).2 =
          Except.ok (get_cache_dir ++
            withExtension "/home/user/robo.xacro".toList "urdf".toList))) :=
  ⟨rfl,
    xacro_input_maps_to_cache_target
      ⟨fun _ => false, fun _ _ => true⟩ "/home/user/robo.xacro".toList rfl⟩

/-- C8.  Every input path carrying an extension other than `xacro` passes
through unchanged and successfully, with no effect: no directory is
created and no conversion is attempted. -/
theorem non_xacro_input_passes_through (w : XacroWorld) (input_path ext : Str)
    (hext : pathExtension input_path = some ext)
    (hne : ext ≠ "xacro".toList) :
    convert_xacro_if_needed_and_get_path w input_path =
      ([], Except.ok input_path) := by
  unfold convert_xacro_if_needed_and_get_path
  rw [hext]
  dsimp only
  rw [if_neg hne]

/-- Witness for C8 at the concrete input `/home/user/robo.urdf`. -/
theorem non_xacro_input_passes_through_witness :
    pathExtension "/home/user/robo.urdf".toList = some "urdf".toList ∧
    "urdf".toList ≠ "xacro".toList ∧
    convert_xacro_if_needed_and_get_path
        ⟨fun _ => false, fun _ _ => false⟩ "/home/user/robo.urdf".toList =
      ([], Except.ok "/home/user/robo.urdf".toList) :=
  ⟨rfl, by decide,
    non_xacro_input_passes_through ⟨fun _ => false, fun _ _ => false⟩
      "/home/user/robo.urdf".toList "urdf".toList rfl (by decide)⟩

/-! ## Claim C9: setup tolerates per-link geometry failure -/

/-- The node the setup loop leaves under name `n`: the last successful
geometry build among the links named `n` (`none` when every such build
returns no node, or no link is named `n`). -/
def builtFor (w : RenderWorld) (base_dir : Str) (n : String) :
    List Link → Option SceneNode
  | [] => none
  | l :: rest =>
    match builtFor w base_dir n rest with
    | some g => some g
    | none =>
      if l.name = n then
        match add_geometry w l.visual base_dir with
        | Except.ok (some g) => some g
        | _ => none
      else
        none

theorem setupLoop_spec (w : RenderWorld) (base_dir : Str) :
    ∀ (links : List Link) (v : Viewer),
      (∀ l ∈ links, ∃ r, add_geometry w l.visual base_dir = Except.ok r) →
      ∃ v2, setupLoop w base_dir links v = Except.ok v2 ∧
        (∀ n : String,
          lookupAssoc n v2.scenes =
            match builtFor w base_dir n links with
            | some g => some g
            | none => lookupAssoc n v.scenes) ∧
        v2.original_colors = v.original_colors ∧
        v2.urdf_robot = v.urdf_robot := by
  intro links
  induction links with
  | nil =>
    intro v hok
    exact ⟨v, rfl, fun n => by simp [builtFor], rfl, rfl⟩
  | cons l rest ih =>
    intro v hok
    obtain ⟨r, hr⟩ := hok l (by simp)
    have hrest : ∀ l2 ∈ rest, ∃ r2, add_geometry w l2.visual base_dir = Except.ok r2 :=
      fun l2 h2 => hok l2 (by simp [h2])
    cases r with
    | none =>
      obtain ⟨v2, hv2, hlook, horig, hrobot⟩ := ih v hrest
      refine ⟨v2, ?_, ?_, horig, hrobot⟩
      · simp only [setupLoop, hr]
        exact hv2
      · intro n
        rw [hlook]
        cases hb : builtFor w base_dir n rest with
        | some g => simp [builtFor, hb]
        | none =>
          by_cases hn : l.name = n
          · simp [builtFor, hb, hn, hr]
          · simp [builtFor, hb, hn]
    | some g =>
      obtain ⟨v2, hv2, hlook, horig, hrobot⟩ :=
        ih { v with scenes := insertAssoc l.name g v.scenes } hrest
      refine ⟨v2, ?_, ?_, horig, hrobot⟩
      · simp only [setupLoop, hr]
        exact hv2
      · intro n
        rw [hlook]
        cases hb : builtFor w base_dir n rest with
        | some g2 => simp [builtFor, hb]
        | none =>
          by_cases hn : l.name = n
          · subst hn
            simp [builtFor, hb, hr, lookupAssoc_insertAssoc_self]
          · simp [builtFor, hb, hn, hr,
              lookupAssoc_insertAssoc_ne n l.name g v.scenes hn]

/-- C9.  When no link's geometry build panics, `setup` completes, and the
resulting scene map is exactly described link by link: a name built
successfully holds its (last) built node; a name all of whose builds
return no node — e.g. a missing mesh file — keeps its prior binding (no
insertion, no corruption), and has no effect on the entries of the other
links.  The override map and the robot description are untouched. -/
theorem setup_tolerates_partial_failure (w : RenderWorld) (v : Viewer)
    (base_dir : Str)
    (hok : ∀ l ∈ v.urdf_robot,
      ∃ r, add_geometry w l.visual base_dir = Except.ok r) :
    ∃ v2, Viewer.setup w v base_dir = Except.ok v2 ∧
      (∀ n : String,
        lookupAssoc n v2.scenes =
          match builtFor w base_dir n v.urdf_robot with
          | some g => some g
          | none => lookupAssoc n v.scenes) ∧
      v2.original_colors = v.original_colors ∧
      v2.urdf_robot = v.urdf_robot :=
  setupLoop_spec w base_dir v.urdf_robot v hok

/-- The world of the C9 witness: no package lookups succeed, no file
exists, no mesh is readable. -/
def worldC9 : RenderWorld :=
  { rospack := fun _ => none,
    pathExists := fun _ => false,
    readMeshFile := fun _ => none }

/-- The viewer of the C9 witness: three links, the middle one referring
to a mesh file that does not exist. -/
def viewerC9 : Viewer :=
  Viewer.new
    [⟨"base", ⟨Geometry.box (1, 1, 1), ⟨1, 0, 0⟩⟩⟩,
     ⟨"arm", ⟨Geometry.mesh "mesh/missing.obj".toList (1, 1, 1), ⟨0, 1, 0⟩⟩⟩,
     ⟨"hand", ⟨Geometry.sphere 1, ⟨0, 0, 1⟩⟩⟩]

/-- Witness for C9: the middle link's mesh file is missing, its build
returns no node, and setup still registers the two other links. -/
theorem setup_tolerates_partial_failure_witness :
    (∀ l ∈ viewerC9.urdf_robot,
      ∃ r, add_geometry worldC9 l.visual "/robots".toList = Except.ok r) ∧
    (∃ v2, Viewer.setup worldC9 viewerC9 "/robots".toList = Except.ok v2 ∧
      (∀ n : String,
        lookupAssoc n v2.scenes =
          match builtFor worldC9 "/robots".toList n viewerC9.urdf_robot with
          | some g => some g
          | none => lookupAssoc n viewerC9.scenes) ∧
      v2.original_colors = viewerC9.original_colors ∧
      v2.urdf_robot = viewerC9.urdf_robot) ∧
    add_geometry worldC9
        ⟨Geometry.mesh "mesh/missing.obj".toList (1, 1, 1), ⟨0, 1, 0⟩⟩
        "/robots".toList =
      Except.ok none ∧
    Viewer.setup worldC9 viewerC9 "/robots".toList =
      Except.ok
        { urdf_robot := viewerC9.urdf_robot,
          scenes :=
            [("base", newPrimitiveNode.set_color ⟨1, 0, 0⟩),
             ("hand", newPrimitiveNode.set_color ⟨0, 0, 1⟩)],
          original_colors := [] } := by
  have hok : ∀ l ∈ viewerC9.urdf_robot,
      ∃ r, add_geometry worldC9 l.visual "/robots".toList = Except.ok r := by
    intro l hl
    fin_cases hl
    · exact ⟨_, rfl⟩
    · exact ⟨_, rfl⟩
    · exact ⟨_, rfl⟩
  exact ⟨hok,
    setup_tolerates_partial_failure worldC9 viewerC9 "/robots".toList hok,
    rfl, rfl⟩
